import Mathlib

/-!
Shallow embedding of the `Continuation` / `RequestCoalescer` core of
`CaseStudy/request_coalesce.ts`.

Modelling decisions, all taken from the source:
* A stack trace is a JavaScript string manipulated only by splitting on
  `"\n"`, indexing `[0]`, and joining with `"\n"`; we represent it by its
  list of lines (`List String`), with `Option` for `undefined`.
* `Continuation` extends `Promise`; its settlement follows ECMAScript
  promise semantics: the first call to the captured resolver or rejector
  settles it, later calls are no-ops.
* `request()` runs in synchronous segments separated by `await` suspension
  points, under the single-threaded cooperative model the file demonstrates
  with `thread`.  `RequestCoalescer.request` below is the synchronous
  prefix (the lock check up to invoking the underlying operation);
  `RequestCoalescer.leaderComplete` is the leader's synchronous remainder
  (resume loop, return/rethrow, `finally` releasing the lock).
* The underlying operation (`someFetchRequest` + `result.json()`) is
  opaque: its settlement is an `OpOutcome`, and its invocation is the
  `RequestStep.leader` step.
* The `forEach` loop of the coalescer's `resumeByThrowing` rejects every
  queued continuation with one shared error object whose `stack` field is
  mutated by each iteration; the embedding threads that mutation left to
  right, and each continuation's rejection records the error value at its
  own rejection step.
-/

/-- A JavaScript `Error` value as the source uses it: a message and an
optional `stack`, the latter modelled as its list of lines. -/
structure JsError where
  message : String
  stack : Option (List String)
deriving DecidableEq

/-- A JavaScript value used as a rejection reason (`unknown` in the
source): either an `Error` instance or an opaque non-Error value
identified by a tag. -/
inductive JsValue where
  | error (e : JsError)
  | nonError (tag : String)
deriving DecidableEq

/-- ECMAScript promise settlement state: the first settlement wins and
later resolver/rejector calls have no effect. -/
inductive PromiseState (T : Type) where
  | pending
  | resolved (v : T)
  | rejected (reason : JsValue)
deriving DecidableEq

/-- `Continuation<T>` from `request_coalesce.ts`: a promise whose captured
resolver/rejector are modelled by the explicit `state`, plus
`initialCallStack`, the creation stack captured in the constructor via
`Error().stack?.split("\n").slice(2).join("\n")` (an ambient runtime
value, supplied here as a parameter at creation). -/
structure Continuation (T : Type) where
  state : PromiseState T
  initialCallStack : Option (List String)
deriving DecidableEq

/-- `new Continuation()` with the default executor `() => {}`: pending,
capturing the ambient creation stack `ctx`. -/
def Continuation.new {T : Type} (ctx : Option (List String)) : Continuation T :=
  ⟨.pending, ctx⟩

/-- `Continuation.resumeByReturning(value)`: calls the captured promise
resolver, so a pending continuation becomes resolved with `value` and a
settled one is unchanged. -/
def Continuation.resumeByReturning {T : Type} (c : Continuation T) (value : T) :
    Continuation T :=
  match c.state with
  | .pending => ⟨.resolved value, c.initialCallStack⟩
  | _ => c

/-- JS `stack?.split("\n")[0]` on the lines model: the first line of the
stack, `none` when the stack is `undefined` (`splitOn` of a string is
never empty, so the default in `headD` is never taken on real stacks). -/
def stackHeadLine : Option (List String) → Option String
  | none => none
  | some ls => some (ls.headD "")

/-- JS `[first, ctx].join("\n")` on the lines model: an `undefined` entry
joins as the empty string, and a multi-line `ctx` contributes all of its
lines. -/
def joinedStack (first : Option String) (ctx : Option (List String)) : List String :=
  first.getD "" :: ctx.getD [""]

/-- `Continuation.resumeByThrowing(error)`: when the reason is an `Error`
instance, its `stack` is overwritten with the first line of its current
stack followed by the continuation's captured creation stack; then the
captured promise rejector is called (settling a pending continuation,
doing nothing to a settled one).  Returns the continuation together with
the possibly mutated reason, since the caller holds the same error
object. -/
def Continuation.resumeByThrowing {T : Type} (c : Continuation T) (reason : JsValue) :
    Continuation T × JsValue :=
  let reason' : JsValue :=
    match reason with
    | .error e =>
        .error ⟨e.message, some (joinedStack (stackHeadLine e.stack) c.initialCallStack)⟩
    | v => v
  (match c.state with
   | .pending => ⟨.rejected reason', c.initialCallStack⟩
   | _ => c,
   reason')

/-- `RequestCoalescer<T>`: the busy `lock` and the FIFO
`continuationQueue` (array used with `push` and in-order `forEach`). -/
structure RequestCoalescer (T : Type) where
  lock : Bool
  continuationQueue : List (Continuation T)
deriving DecidableEq

/-- A freshly constructed coalescer: `lock = false`, empty queue. -/
def RequestCoalescer.init {T : Type} : RequestCoalescer T :=
  ⟨false, []⟩

/-- `coalesce()`: create a pending continuation capturing the ambient
stack `ctx`, push it at the back of the queue, return it. -/
def RequestCoalescer.coalesce {T : Type} (s : RequestCoalescer T)
    (ctx : Option (List String)) : RequestCoalescer T × Continuation T :=
  let cont : Continuation T := Continuation.new ctx
  (⟨s.lock, s.continuationQueue ++ [cont]⟩, cont)

/-- `RequestCoalescer.resumeByReturning(result)`: resolve each queued
continuation with `result` in queue (enqueue) order, then empty the
queue.  The second component is the list of resumed continuations in
notification order, which the suspended followers observe. -/
def RequestCoalescer.resumeByReturning {T : Type} (s : RequestCoalescer T) (result : T) :
    RequestCoalescer T × List (Continuation T) :=
  (⟨s.lock, []⟩, s.continuationQueue.map (fun c => c.resumeByReturning result))

/-- The `forEach` body of the coalescer's `resumeByThrowing`: each queued
continuation is resumed-by-throwing in order with the single shared error
object, whose stack mutation is threaded left to right. -/
def throwLoop {T : Type} : List (Continuation T) → JsValue → List (Continuation T) × JsValue
  | [], e => ([], e)
  | c :: cs, e =>
      let p := c.resumeByThrowing e
      let q := throwLoop cs p.2
      (p.1 :: q.1, q.2)

/-- `RequestCoalescer.resumeByThrowing(e)`: reject every queued
continuation in queue order with the shared error, then empty the queue.
Returns the notified continuations in order and the error object's final
(mutated) value, which the leader still holds. -/
def RequestCoalescer.resumeByThrowing {T : Type} (s : RequestCoalescer T) (e : JsValue) :
    RequestCoalescer T × List (Continuation T) × JsValue :=
  let p := throwLoop s.continuationQueue e
  (⟨s.lock, []⟩, p.1, p.2)

/-- What one call to `request()` does in its first synchronous segment:
either it becomes the leader (takes the lock and invokes the underlying
operation) or it becomes a follower holding the returned continuation. -/
inductive RequestStep (T : Type) where
  | leader
  | follower (cont : Continuation T)
deriving DecidableEq

/-- The synchronous prefix of `request()`: `if (this.lock) return
this.coalesce();` else take the lock and invoke the underlying operation
(the caller then suspends awaiting it). -/
def RequestCoalescer.request {T : Type} (s : RequestCoalescer T)
    (ctx : Option (List String)) : RequestCoalescer T × RequestStep T :=
  if s.lock then
    let p := s.coalesce ctx
    (p.1, .follower p.2)
  else
    (⟨true, s.continuationQueue⟩, .leader)

/-- Settlement of the opaque underlying operation
(`someFetchRequest` + `json()`): a decoded payload or a failure. -/
inductive OpOutcome (T : Type) where
  | success (payload : T)
  | failure (e : JsValue)

/-- How the leader's own `request()` call finishes: returning the payload
or throwing the (possibly stack-mutated) error. -/
inductive LeaderResult (T : Type) where
  | returned (v : T)
  | threw (e : JsValue)
deriving DecidableEq

/-- The leader's synchronous remainder of `request()` once the awaited
operation settles: on success `this.resumeByReturning(payload)` then
`return payload`; on failure `this.resumeByThrowing(e)` then `throw e`;
the `finally` clears the lock on both paths.  Also returns the notified
follower continuations in notification order. -/
def RequestCoalescer.leaderComplete {T : Type} (s : RequestCoalescer T) (o : OpOutcome T) :
    RequestCoalescer T × List (Continuation T) × LeaderResult T :=
  match o with
  | .success payload =>
      let p := s.resumeByReturning payload
      (⟨false, p.1.continuationQueue⟩, p.2, .returned payload)
  | .failure e =>
      let p := s.resumeByThrowing e
      (⟨false, p.1.continuationQueue⟩, p.2.1, .threw p.2.2)

/-- Run the synchronous prefixes of a batch of `request()` calls in
arrival order, each capturing its own ambient creation stack; returns the
final state and the step each call took. -/
def requestMany {T : Type} (s : RequestCoalescer T) :
    List (Option (List String)) → RequestCoalescer T × List (RequestStep T)
  | [] => (s, [])
  | ctx :: rest =>
      let p := s.request ctx
      let q := requestMany p.1 rest
      (q.1, p.2 :: q.2)

/-- Number of invocations of the underlying operation among a batch of
request steps (each `leader` step is exactly one invocation). -/
def invocationCount {T : Type} (steps : List (RequestStep T)) : Nat :=
  steps.countP fun r => match r with | .leader => true | _ => false

/-- One full generation under the cooperative model: the arrivals' steps,
the final coalescer state, the follower continuations in notification
order, and the leader's own result. -/
structure GenerationRun (T : Type) where
  steps : List (RequestStep T)
  finalState : RequestCoalescer T
  notified : List (Continuation T)
  leaderResult : LeaderResult T

/-- A generation: all calls in `ctxs` arrive (synchronously, in order)
before the first call's underlying operation completes with outcome `o`;
then the leader's completion segment runs. -/
def runGeneration {T : Type} (ctxs : List (Option (List String))) (o : OpOutcome T) :
    GenerationRun T :=
  let p := requestMany RequestCoalescer.init ctxs
  let q := p.1.leaderComplete o
  ⟨p.2, q.1, q.2.1, q.2.2⟩

/-! ### Helper lemmas -/

/-- While the lock is held, a batch of arrivals only appends fresh pending
continuations in arrival order, and every arrival becomes a follower. -/
theorem requestMany_locked {T : Type} (ctxs : List (Option (List String))) :
    ∀ (s : RequestCoalescer T), s.lock = true →
      requestMany s ctxs =
        (⟨true, s.continuationQueue ++ ctxs.map Continuation.new⟩,
         ctxs.map fun ctx => RequestStep.follower (Continuation.new ctx)) := by
  induction ctxs with
  | nil =>
      rintro ⟨lk, q⟩ h
      obtain rfl : lk = true := h
      simp [requestMany]
  | cons ctx rest ih =>
      rintro ⟨lk, q⟩ h
      obtain rfl : lk = true := h
      simp [requestMany, RequestCoalescer.request, RequestCoalescer.coalesce,
        ih ⟨true, q ++ [Continuation.new ctx]⟩ rfl]

/-- A batch of follower steps contains no invocation of the underlying
operation. -/
theorem invocationCount_follower_map {T : Type} (ctxs : List (Option (List String))) :
    invocationCount
      ((ctxs.map fun ctx => RequestStep.follower (Continuation.new ctx)) :
        List (RequestStep T)) = 0 := by
  induction ctxs with
  | nil => rfl
  | cons c cs ih => simp only [List.map_cons, invocationCount, List.countP_cons] at ih ⊢; simp [ih]

/-! ### Claim theorems -/

/-- C1: for `N` concurrent calls to `request()` all arriving before the
first call's underlying operation completes, exactly one invocation of the
underlying operation occurs (the first call's `leader` step); every other
call is enqueued as a follower and takes no `leader` step. -/
theorem requestCoalescer_at_most_one_leader {T : Type}
    (c : Option (List String)) (cs : List (Option (List String))) :
    invocationCount (requestMany (RequestCoalescer.init : RequestCoalescer T) (c :: cs)).2 = 1 ∧
    (requestMany (RequestCoalescer.init : RequestCoalescer T) (c :: cs)).2 =
      .leader :: cs.map (fun ctx => RequestStep.follower (Continuation.new ctx)) ∧
    (requestMany (RequestCoalescer.init : RequestCoalescer T) (c :: cs)).1.continuationQueue =
      cs.map Continuation.new := by
  have hrest := requestMany_locked cs (⟨true, []⟩ : RequestCoalescer T) rfl
  simp [requestMany, RequestCoalescer.request, RequestCoalescer.init, hrest,
    invocationCount, List.countP_cons, invocationCount_follower_map]

/-- C4: the leader's completion clears the lock on the success path and
the failure path alike, so any strictly later call finds the lock free,
becomes a new leader (invoking the underlying operation) and re-takes the
lock. -/
theorem busy_released_then_new_leader {T : Type} (s : RequestCoalescer T)
    (o : OpOutcome T) (ctx : Option (List String)) :
    (s.leaderComplete o).1.lock = false ∧
    ((s.leaderComplete o).1.request ctx).2 = .leader ∧
    ((s.leaderComplete o).1.request ctx).1.lock = true := by
  cases o <;>
    simp [RequestCoalescer.leaderComplete, RequestCoalescer.resumeByReturning,
      RequestCoalescer.resumeByThrowing, RequestCoalescer.request]

/-- C8: resolving an already-settled continuation a second time (with any
value) is a no-op: the state is unchanged and the first value is still the
delivered outcome. -/
theorem continuation_idempotent_resume {T : Type} (c : Continuation T) (v w : T)
    (h : c.state = .pending) :
    (c.resumeByReturning v).resumeByReturning w = c.resumeByReturning v ∧
    ((c.resumeByReturning v).resumeByReturning w).state = .resolved v := by
  obtain ⟨st, ctx⟩ := c
  cases st <;> simp_all [Continuation.resumeByReturning]

/-- Witness for C8 at a concrete continuation. -/
theorem continuation_idempotent_resume_witness :
    (Continuation.new none : Continuation Nat).state = .pending ∧
    (((Continuation.new none : Continuation Nat).resumeByReturning 1).resumeByReturning 2 =
        (Continuation.new none : Continuation Nat).resumeByReturning 1 ∧
      (((Continuation.new none : Continuation Nat).resumeByReturning 1).resumeByReturning 2).state =
        .resolved 1) :=
  ⟨rfl, continuation_idempotent_resume (Continuation.new none) 1 2 rfl⟩

/-- C9: a call to `request()` while the lock is held leaves the lock
unchanged, appends exactly one fresh pending continuation at the back of
the queue, becomes a follower (no invocation of the underlying operation),
and changes nothing else of the coalescer state. -/
theorem request_while_busy_frame {T : Type} (s : RequestCoalescer T)
    (ctx : Option (List String)) (h : s.lock = true) :
    s.request ctx =
      (⟨s.lock, s.continuationQueue ++ [Continuation.new ctx]⟩,
       .follower (Continuation.new ctx)) ∧
    (Continuation.new ctx : Continuation T).state = .pending := by
  refine ⟨?_, rfl⟩
  simp [RequestCoalescer.request, RequestCoalescer.coalesce, h]

/-- Witness for C9 at a concrete busy coalescer. -/
theorem request_while_busy_frame_witness :
    (⟨true, []⟩ : RequestCoalescer Nat).lock = true ∧
    ((⟨true, []⟩ : RequestCoalescer Nat).request none =
        (⟨(⟨true, []⟩ : RequestCoalescer Nat).lock,
          (⟨true, []⟩ : RequestCoalescer Nat).continuationQueue ++ [Continuation.new none]⟩,
         .follower (Continuation.new none)) ∧
      (Continuation.new none : Continuation Nat).state = .pending) :=
  ⟨rfl, request_while_busy_frame ⟨true, []⟩ none rfl⟩

/-- C10: resuming-by-throwing with a non-`Error` reason performs no stack
or trace augmentation: the continuation is rejected with that value
completely unmodified, and the reason object is returned unchanged. -/
theorem resumeByThrowing_nonError_unmodified {T : Type} (c : Continuation T) (tag : String)
    (h : c.state = .pending) :
    c.resumeByThrowing (.nonError tag) =
      (⟨.rejected (.nonError tag), c.initialCallStack⟩, .nonError tag) := by
  obtain ⟨st, ctx⟩ := c
  cases st <;> simp_all [Continuation.resumeByThrowing]

/-- Witness for C10 at a concrete continuation and non-Error reason. -/
theorem resumeByThrowing_nonError_unmodified_witness :
    (Continuation.new (some ["at created"]) : Continuation Nat).state = .pending ∧
    (Continuation.new (some ["at created"]) : Continuation Nat).resumeByThrowing
        (.nonError "a string reason") =
      (⟨.rejected (.nonError "a string reason"),
        (Continuation.new (some ["at created"]) : Continuation Nat).initialCallStack⟩,
       .nonError "a string reason") :=
  ⟨rfl, resumeByThrowing_nonError_unmodified (Continuation.new (some ["at created"]))
    "a string reason" rfl⟩

/-- The first line of a stack produced by the source's join is the first
line that was joined in. -/
@[simp] theorem stackHeadLine_some_joinedStack (f : Option String) (c : Option (List String)) :
    stackHeadLine (some (joinedStack f c)) = some (f.getD "") := rfl

/-- Joining with an already-defaulted first line is the same join. -/
@[simp] theorem joinedStack_some_getD (f : Option String) (c : Option (List String)) :
    joinedStack (some (f.getD "")) c = joinedStack f c := rfl

/-- Resolving never changes the captured creation stack. -/
@[simp] theorem resumeByReturning_initialCallStack {T : Type} (c : Continuation T) (v : T) :
    (c.resumeByReturning v).initialCallStack = c.initialCallStack := by
  obtain ⟨st, ctx⟩ := c; cases st <;> rfl

/-- Rejecting never changes the captured creation stack. -/
@[simp] theorem resumeByThrowing_fst_initialCallStack {T : Type} (c : Continuation T)
    (e : JsValue) : ((c.resumeByThrowing e).1).initialCallStack = c.initialCallStack := by
  obtain ⟨st, ctx⟩ := c; cases st <;> rfl

/-- The rejection loop notifies exactly as many continuations as were
queued. -/
theorem throwLoop_length {T : Type} :
    ∀ (conts : List (Continuation T)) (e : JsValue),
      (throwLoop conts e).1.length = conts.length := by
  intro conts
  induction conts with
  | nil => intro e; rfl
  | cons c cs ih => intro e; simp [throwLoop, ih]

/-- The rejection loop preserves each position's creation stack, so the
notified list corresponds position-by-position to the queue. -/
theorem throwLoop_map_initialCallStack {T : Type} :
    ∀ (conts : List (Continuation T)) (e : JsValue),
      (throwLoop conts e).1.map (fun c => c.initialCallStack) =
        conts.map (fun c => c.initialCallStack) := by
  intro conts
  induction conts with
  | nil => intro e; rfl
  | cons c cs ih => intro e; simp [throwLoop, ih]

/-- After the rejection loop over a queue of pending continuations, every
notified continuation has been settled by rejection. -/
theorem throwLoop_all_rejected {T : Type} :
    ∀ (conts : List (Continuation T)), (∀ c ∈ conts, c.state = .pending) →
      ∀ (e : JsValue), ∀ c' ∈ (throwLoop conts e).1, ∃ r, c'.state = .rejected r := by
  intro conts
  induction conts with
  | nil => intro _ e c' hc'; simp [throwLoop] at hc'
  | cons c cs ih =>
      intro h e c' hc'
      obtain ⟨cst, cctx⟩ := c
      have hc : cst = .pending := h ⟨cst, cctx⟩ (by simp)
      subst hc
      simp [throwLoop, Continuation.resumeByThrowing] at hc'
      rcases hc' with rfl | hmem
      · exact ⟨_, rfl⟩
      · exact ih (fun d hd => h d (by simp [hd])) _ c' hmem

/-- Characterization of the rejection loop over a queue of freshly created
continuations: the continuation created with stack `ctx` is rejected with
the shared error's message and a stack made of the first line of the
original error stack followed by `ctx` — the mutation threading preserves
the first line, so each follower's rejection carries its own creation
stack. -/
theorem throwLoop_map_new {T : Type} (ctxs : List (Option (List String))) (m : String) :
    ∀ (st : Option (List String)),
      (throwLoop (ctxs.map Continuation.new : List (Continuation T)) (.error ⟨m, st⟩)).1 =
        ctxs.map fun ctx =>
          (⟨.rejected (.error ⟨m, some (joinedStack (stackHeadLine st) ctx)⟩), ctx⟩ :
            Continuation T) := by
  induction ctxs with
  | nil => intro st; rfl
  | cons ctx rest ih =>
      intro st
      simp [throwLoop, Continuation.resumeByThrowing, Continuation.new,
        ih (some (joinedStack (stackHeadLine st) ctx))]

/-- The shared error object keeps its message through the whole rejection
loop: only its stack is mutated. -/
theorem throwLoop_error_message {T : Type} :
    ∀ (conts : List (Continuation T)) (m : String) (st : Option (List String)),
      ∃ stk, (throwLoop conts (.error ⟨m, st⟩)).2 = .error ⟨m, stk⟩ := by
  intro conts
  induction conts with
  | nil => intro m st; exact ⟨st, rfl⟩
  | cons c cs ih =>
      intro m st
      simpa [throwLoop, Continuation.resumeByThrowing] using
        ih m (some (joinedStack (stackHeadLine st) c.initialCallStack))

/-- Resolving a fresh continuation yields a resolved one with the same
creation stack. -/
@[simp] theorem new_resumeByReturning {T : Type} (ctx : Option (List String)) (p : T) :
    (Continuation.new ctx : Continuation T).resumeByReturning p = ⟨.resolved p, ctx⟩ := rfl

/-- Full characterization of a successful generation: the first arrival is
the single leader, the others are followers in order; the final state is
unlocked with an empty queue; each follower is resolved with the payload in
enqueue order; the leader returns the payload. -/
theorem runGeneration_success {T : Type} (c : Option (List String))
    (cs : List (Option (List String))) (p : T) :
    runGeneration (c :: cs) (.success p) =
      ⟨.leader :: cs.map (fun ctx => RequestStep.follower (Continuation.new ctx)),
       ⟨false, []⟩,
       cs.map (fun ctx => ⟨.resolved p, ctx⟩),
       .returned p⟩ := by
  have h := requestMany_locked cs (⟨true, []⟩ : RequestCoalescer T) rfl
  simp [runGeneration, requestMany, RequestCoalescer.request, RequestCoalescer.init, h,
    RequestCoalescer.leaderComplete, RequestCoalescer.resumeByReturning, Function.comp]

/-- Characterization of a failing generation whose underlying error is an
`Error` with message `m` and stack `st`: followers are rejected in enqueue
order, each with message `m` and a stack of the original first line
followed by that follower's own creation stack; the state ends unlocked
and drained; the leader rethrows the shared error, still carrying message
`m`. -/
theorem runGeneration_failure_error {T : Type} (c : Option (List String))
    (cs : List (Option (List String))) (m : String) (st : Option (List String)) :
    (runGeneration (c :: cs) (.failure (.error ⟨m, st⟩)) : GenerationRun T).notified =
        (cs.map fun ctx =>
          (⟨.rejected (.error ⟨m, some (joinedStack (stackHeadLine st) ctx)⟩), ctx⟩ :
            Continuation T)) ∧
    (runGeneration (c :: cs) (.failure (.error ⟨m, st⟩)) : GenerationRun T).finalState =
        ⟨false, []⟩ ∧
    (runGeneration (c :: cs) (.failure (.error ⟨m, st⟩)) : GenerationRun T).steps =
        .leader :: cs.map (fun ctx => RequestStep.follower (Continuation.new ctx)) ∧
    ∃ stk,
      (runGeneration (c :: cs) (.failure (.error ⟨m, st⟩)) : GenerationRun T).leaderResult =
        .threw (.error ⟨m, stk⟩) := by
  have h := requestMany_locked cs (⟨true, []⟩ : RequestCoalescer T) rfl
  have hmsg := throwLoop_error_message (cs.map Continuation.new : List (Continuation T)) m st
  refine ⟨?_, ?_, ?_, ?_⟩ <;>
    simp [runGeneration, requestMany, RequestCoalescer.request, RequestCoalescer.init, h,
      RequestCoalescer.leaderComplete, RequestCoalescer.resumeByThrowing,
      throwLoop_map_new, hmsg]

/-- A fresh continuation is pending. -/
@[simp] theorem new_state {T : Type} (ctx : Option (List String)) :
    (Continuation.new ctx : Continuation T).state = .pending := rfl

/-- A fresh continuation captures exactly the ambient creation stack. -/
@[simp] theorem new_initialCallStack {T : Type} (ctx : Option (List String)) :
    (Continuation.new ctx : Continuation T).initialCallStack = ctx := rfl

/-- Resolving a pending continuation settles it with the value. -/
theorem resumeByReturning_of_pending {T : Type} (d : Continuation T) (p : T)
    (h : d.state = .pending) : d.resumeByReturning p = ⟨.resolved p, d.initialCallStack⟩ := by
  obtain ⟨st, ctx⟩ := d; cases st <;> simp_all [Continuation.resumeByReturning]

/-- C2: shared outcome.  In a generation with one leader and any number of
followers, on success every follower's continuation is resolved with the
same decoded payload the leader returns; on failure with an `Error` of
message `m`, the leader rethrows an error still carrying message `m` and
every follower's continuation is rejected with a failure carrying that
same message. -/
theorem coalescer_shared_outcome {T : Type} (c : Option (List String))
    (cs : List (Option (List String))) (p : T) (m : String) (st : Option (List String)) :
    ((runGeneration (c :: cs) (.success p) : GenerationRun T).leaderResult = .returned p ∧
      ∀ cont ∈ (runGeneration (c :: cs) (.success p) : GenerationRun T).notified,
        cont.state = .resolved p) ∧
    ((∃ stk,
        (runGeneration (c :: cs) (.failure (.error ⟨m, st⟩)) : GenerationRun T).leaderResult =
          .threw (.error ⟨m, stk⟩)) ∧
      ∀ cont ∈ (runGeneration (c :: cs) (.failure (.error ⟨m, st⟩)) : GenerationRun T).notified,
        ∃ stk, cont.state = .rejected (.error ⟨m, stk⟩)) := by
  obtain ⟨h1, _, _, h4⟩ := runGeneration_failure_error c cs m st
  refine ⟨⟨?_, ?_⟩, h4, ?_⟩
  · simp [runGeneration_success]
  · simp only [runGeneration_success]
    intro cont hc
    simp only [List.mem_map] at hc
    obtain ⟨ctx, _, rfl⟩ := hc
    rfl
  · rw [h1]
    intro cont hc
    simp only [List.mem_map] at hc
    obtain ⟨ctx, _, rfl⟩ := hc
    exact ⟨_, rfl⟩

/-- After the rejection loop over a queue of pending continuations with a
shared `Error` reason, every notified continuation is rejected with a
failure carrying that error's message: the threaded mutation only ever
touches the stack. -/
theorem throwLoop_rejected_message {T : Type} :
    ∀ (conts : List (Continuation T)), (∀ c ∈ conts, c.state = .pending) →
      ∀ (m : String) (st : Option (List String)),
        ∀ c' ∈ (throwLoop conts (.error ⟨m, st⟩)).1,
          ∃ stk, c'.state = .rejected (.error ⟨m, stk⟩) := by
  intro conts
  induction conts with
  | nil => intro _ m st c' hc'; simp [throwLoop] at hc'
  | cons c cs ih =>
      intro h m st c' hc'
      obtain ⟨cst, cctx⟩ := c
      have hc : cst = .pending := h ⟨cst, cctx⟩ (by simp)
      subst hc
      simp [throwLoop, Continuation.resumeByThrowing] at hc'
      rcases hc' with rfl | hmem
      · exact ⟨_, rfl⟩
      · exact ih (fun d hd => h d (by simp [hd])) m
          (some (joinedStack (stackHeadLine st) cctx)) c' hmem

/-- A non-`Error` reason passes through the rejection loop unmodified, so
every notified pending continuation is rejected with exactly that value. -/
theorem throwLoop_rejected_nonError {T : Type} :
    ∀ (conts : List (Continuation T)), (∀ c ∈ conts, c.state = .pending) →
      ∀ (tag : String), ∀ c' ∈ (throwLoop conts (.nonError tag)).1,
        c'.state = .rejected (.nonError tag) := by
  intro conts
  induction conts with
  | nil => intro _ tag c' hc'; simp [throwLoop] at hc'
  | cons c cs ih =>
      intro h tag c' hc'
      obtain ⟨cst, cctx⟩ := c
      have hc : cst = .pending := h ⟨cst, cctx⟩ (by simp)
      subst hc
      simp [throwLoop, Continuation.resumeByThrowing] at hc'
      rcases hc' with rfl | hmem
      · rfl
      · exact ih (fun d hd => h d (by simp [hd])) tag c' hmem

/-- C3: when the leader's operation completes (either way), every
continuation in the follower queue (all pending) is resumed exactly once
with the leader's outcome and the queue is emptied in the same synchronous
step: the notified list matches the queue position by position (same
length, same creation stacks), every notified continuation is settled with
the leader's outcome — resolved with the leader's payload on success; on
failure rejected with the leader's error, meaning the same message when
the reason is an `Error` instance (whose stack only gains that follower's
provenance) and the identical value when it is not — and none remains
queued afterwards. -/
theorem leader_settlement_drains_queue {T : Type} (s : RequestCoalescer T) (o : OpOutcome T)
    (h : ∀ c ∈ s.continuationQueue, c.state = .pending) :
    (s.leaderComplete o).1.continuationQueue = [] ∧
    (s.leaderComplete o).2.1.length = s.continuationQueue.length ∧
    (s.leaderComplete o).2.1.map (fun c => c.initialCallStack) =
      s.continuationQueue.map (fun c => c.initialCallStack) ∧
    (∀ p, o = .success p → ∀ c' ∈ (s.leaderComplete o).2.1, c'.state = .resolved p) ∧
    (∀ m st, o = .failure (.error ⟨m, st⟩) →
      ∀ c' ∈ (s.leaderComplete o).2.1, ∃ stk, c'.state = .rejected (.error ⟨m, stk⟩)) ∧
    (∀ tag, o = .failure (.nonError tag) →
      ∀ c' ∈ (s.leaderComplete o).2.1, c'.state = .rejected (.nonError tag)) := by
  obtain ⟨lk, q⟩ := s
  cases o with
  | success p =>
      refine ⟨rfl, ?_, ?_, ?_, ?_, ?_⟩
      · simp [RequestCoalescer.leaderComplete, RequestCoalescer.resumeByReturning]
      · simp [RequestCoalescer.leaderComplete, RequestCoalescer.resumeByReturning,
          Function.comp]
      · intro p' hp'
        obtain rfl : p = p' := by cases hp'; rfl
        intro c' hc'
        simp only [RequestCoalescer.leaderComplete, RequestCoalescer.resumeByReturning,
          List.mem_map] at hc'
        obtain ⟨d, hd, rfl⟩ := hc'
        rw [resumeByReturning_of_pending d p (h d hd)]
      · intro m st hm
        exact OpOutcome.noConfusion hm
      · intro tag ht
        exact OpOutcome.noConfusion ht
  | failure e =>
      refine ⟨rfl, ?_, ?_, ?_, ?_, ?_⟩
      · simp [RequestCoalescer.leaderComplete, RequestCoalescer.resumeByThrowing,
          throwLoop_length]
      · simp [RequestCoalescer.leaderComplete, RequestCoalescer.resumeByThrowing,
          throwLoop_map_initialCallStack]
      · intro p hp
        exact OpOutcome.noConfusion hp
      · intro m st he c' hc'
        obtain rfl : e = .error ⟨m, st⟩ := by injection he
        simp only [RequestCoalescer.leaderComplete, RequestCoalescer.resumeByThrowing] at hc'
        exact throwLoop_rejected_message q h m st c' hc'
      · intro tag he c' hc'
        obtain rfl : e = .nonError tag := by injection he
        simp only [RequestCoalescer.leaderComplete, RequestCoalescer.resumeByThrowing] at hc'
        exact throwLoop_rejected_nonError q h tag c' hc'

/-- Witness for C3 at a busy coalescer with one pending queued
continuation and a failing outcome, exercising the error-message
conjunct. -/
theorem leader_settlement_drains_queue_witness :
    (∀ c ∈ (⟨true, [Continuation.new (some ["at f1"])]⟩ :
        RequestCoalescer Nat).continuationQueue, c.state = .pending) ∧
    (((⟨true, [Continuation.new (some ["at f1"])]⟩ : RequestCoalescer Nat).leaderComplete
          (.failure (.error ⟨"boom", none⟩))).1.continuationQueue = [] ∧
      ((⟨true, [Continuation.new (some ["at f1"])]⟩ : RequestCoalescer Nat).leaderComplete
          (.failure (.error ⟨"boom", none⟩))).2.1.length =
        (⟨true, [Continuation.new (some ["at f1"])]⟩ :
          RequestCoalescer Nat).continuationQueue.length ∧
      ((⟨true, [Continuation.new (some ["at f1"])]⟩ : RequestCoalescer Nat).leaderComplete
          (.failure (.error ⟨"boom", none⟩))).2.1.map (fun c => c.initialCallStack) =
        (⟨true, [Continuation.new (some ["at f1"])]⟩ :
          RequestCoalescer Nat).continuationQueue.map (fun c => c.initialCallStack) ∧
      (∀ p, (OpOutcome.failure (.error ⟨"boom", none⟩) : OpOutcome Nat) = .success p →
        ∀ c' ∈ ((⟨true, [Continuation.new (some ["at f1"])]⟩ :
            RequestCoalescer Nat).leaderComplete
            (.failure (.error ⟨"boom", none⟩))).2.1, c'.state = .resolved p) ∧
      (∀ m st, (OpOutcome.failure (.error ⟨"boom", none⟩) : OpOutcome Nat) =
          .failure (.error ⟨m, st⟩) →
        ∀ c' ∈ ((⟨true, [Continuation.new (some ["at f1"])]⟩ :
            RequestCoalescer Nat).leaderComplete
            (.failure (.error ⟨"boom", none⟩))).2.1,
          ∃ stk, c'.state = .rejected (.error ⟨m, stk⟩)) ∧
      (∀ tag, (OpOutcome.failure (.error ⟨"boom", none⟩) : OpOutcome Nat) =
          .failure (.nonError tag) →
        ∀ c' ∈ ((⟨true, [Continuation.new (some ["at f1"])]⟩ :
            RequestCoalescer Nat).leaderComplete
            (.failure (.error ⟨"boom", none⟩))).2.1,
          c'.state = .rejected (.nonError tag))) :=
  ⟨by decide, leader_settlement_drains_queue ⟨true, [Continuation.new (some ["at f1"])]⟩
    (.failure (.error ⟨"boom", none⟩)) (by decide)⟩

/-- C7: FIFO notification.  In a generation whose followers were enqueued
with creation stacks `cs` in arrival order, the leader's completion
notifies the follower continuations in exactly that order, on the success
path and on the failure path alike (witnessed by the notified list's
creation stacks). -/
theorem fifo_notification {T : Type} (c : Option (List String))
    (cs : List (Option (List String))) (p : T) (e : JsValue) :
    (runGeneration (c :: cs) (.success p) : GenerationRun T).notified.map
        (fun d => d.initialCallStack) = cs ∧
    (runGeneration (c :: cs) (.failure e) : GenerationRun T).notified.map
        (fun d => d.initialCallStack) = cs := by
  constructor
  · simp [runGeneration_success, Function.comp_def]
  · have h := requestMany_locked cs (⟨true, []⟩ : RequestCoalescer T) rfl
    simp [runGeneration, requestMany, RequestCoalescer.request, RequestCoalescer.init, h,
      RequestCoalescer.leaderComplete, RequestCoalescer.resumeByThrowing,
      throwLoop_map_initialCallStack, Function.comp_def]

/-- C6 counterexample: `resumeByThrowing` does not append the creation
context to the error's existing trace.  For an error whose stack is
`["Error: boom", "at origin.js:1"]` and a continuation created at
`["at created.js:9"]`, the continuation is rejected with stack
`["Error: boom", "at created.js:9"]` — the origin frame
`"at origin.js:1"` is discarded — and not with the appended trace
`["Error: boom", "at origin.js:1", "at created.js:9"]` the claim
describes. -/
theorem resumeByThrowing_trace_counterexample :
    ((Continuation.new (some ["at created.js:9"]) : Continuation Nat).resumeByThrowing
        (.error ⟨"boom", some ["Error: boom", "at origin.js:1"]⟩)).1.state =
      .rejected (.error ⟨"boom", some ["Error: boom", "at created.js:9"]⟩) ∧
    ¬ (((Continuation.new (some ["at created.js:9"]) : Continuation Nat).resumeByThrowing
          (.error ⟨"boom", some ["Error: boom", "at origin.js:1"]⟩)).1.state =
        .rejected (.error ⟨"boom",
          some (["Error: boom", "at origin.js:1"] ++ ["at created.js:9"])⟩)) := by
  decide

/-- C6 amended: for a pending continuation and an `Error` reason,
`resumeByThrowing` settles the continuation with the failure, whose trace
becomes the first line of the error's original trace (its message header)
followed by the continuation's captured creation context; original trace
lines after the first are discarded. -/
theorem resumeByThrowing_trace_amended {T : Type} (c : Continuation T) (m : String)
    (st : Option (List String)) (h : c.state = .pending) :
    c.resumeByThrowing (.error ⟨m, st⟩) =
      (⟨.rejected (.error ⟨m, some (joinedStack (stackHeadLine st) c.initialCallStack)⟩),
        c.initialCallStack⟩,
       .error ⟨m, some (joinedStack (stackHeadLine st) c.initialCallStack)⟩) := by
  obtain ⟨cst, ctx⟩ := c
  cases cst <;> simp_all [Continuation.resumeByThrowing]

/-- Witness for the amended C6 at a concrete continuation and error. -/
theorem resumeByThrowing_trace_amended_witness :
    (Continuation.new (some ["at made.js:3"]) : Continuation Nat).state = .pending ∧
    (Continuation.new (some ["at made.js:3"]) : Continuation Nat).resumeByThrowing
        (.error ⟨"oops", some ["Error: oops", "at deep.js:7"]⟩) =
      (⟨.rejected (.error ⟨"oops",
          some (joinedStack (stackHeadLine (some ["Error: oops", "at deep.js:7"]))
            (Continuation.new (some ["at made.js:3"]) :
              Continuation Nat).initialCallStack)⟩),
        (Continuation.new (some ["at made.js:3"]) : Continuation Nat).initialCallStack⟩,
       .error ⟨"oops",
         some (joinedStack (stackHeadLine (some ["Error: oops", "at deep.js:7"]))
           (Continuation.new (some ["at made.js:3"]) :
             Continuation Nat).initialCallStack)⟩) :=
  ⟨rfl, resumeByThrowing_trace_amended (Continuation.new (some ["at made.js:3"])) "oops"
    (some ["Error: oops", "at deep.js:7"]) rfl⟩
